import Mathlib

/-!
Verification of the creative-automation pipeline against its specification.

The Python source is shallowly embedded: pure computations become Lean
functions; remote calls and filesystem probes become explicit oracle
records (an environment of outcomes) threaded through the control flow.
Each definition mirrors one function of the source, keeping its name.
-/

namespace Pipeline

/-! ## brief_processor.py -/

/-- Mirrors `BriefProcessor._clean_filename`: a character is kept when
Python's `c.isalnum() or c in ('-', '_')` holds; otherwise it is replaced
by an underscore.  Python's `isalnum` is modelled by `Char.isAlphanum`. -/
def keepChar (c : Char) : Bool :=
  c.isAlphanum || c = '-' || c = '_'

def cleanChar (c : Char) : Char :=
  if keepChar c then c else '_'

/-- Python's `str.upper()` on ASCII strings, modelled character-wise
(core `String.toUpper` is positional and does not reduce in the kernel). -/
def str_toUpper (s : String) : String :=
  ⟨s.data.map Char.toUpper⟩

/-- Python's `str.lower()` on ASCII strings, modelled character-wise. -/
def str_toLower (s : String) : String :=
  ⟨s.data.map Char.toLower⟩

/-- Python's `str.strip('_')`: remove leading and trailing underscores. -/
def stripUnderscores (l : List Char) : List Char :=
  ((l.dropWhile (· = '_')).reverse.dropWhile (· = '_')).reverse

/-- `BriefProcessor._clean_filename`:
`"".join(c if c.isalnum() or c in ('-', '_') else '_' for c in filename).strip('_')`. -/
def clean_filename (s : String) : String :=
  ⟨stripUnderscores (s.data.map cleanChar)⟩

/-- The value of the `product` key of a raw brief: the code checks
`isinstance(brief_data['product'], list)`, so a non-list value is possible. -/
inductive ProductField
  | plist (entries : List String)
  | notList
deriving DecidableEq, Repr

/-- A raw campaign brief as parsed from JSON; `none` means the key is absent. -/
structure BriefData where
  campaign : Option String
  target_region : Option String
  target_audience : Option String
  product : Option ProductField
  campaign_message : Option String
  file_format : Option String
  hero_image : Option String
deriving DecidableEq, Repr

/-- `BriefProcessor._validate_brief`: all required keys present, `product`
a list with at least 2 entries, `file_format` (upper-cased) one of
PNG / JPEG / JPG. -/
def validate_brief (b : BriefData) : Bool :=
  b.campaign.isSome && b.target_region.isSome && b.target_audience.isSome &&
  b.product.isSome && b.campaign_message.isSome && b.file_format.isSome &&
  (match b.product with
   | some (ProductField.plist es) => decide (2 ≤ es.length)
   | _ => false) &&
  (match b.file_format with
   | some ff =>
       str_toUpper ff = "PNG" || str_toUpper ff = "JPEG" || str_toUpper ff = "JPG"
   | none => false)

/-- The normalized brief produced by `_normalize_brief_data`. -/
structure CampaignData where
  campaign : String
  campaign_clean : String
  target_region : String
  target_audience : String
  product : List String
  campaign_message : String
  file_format : String
  hero_image : String
deriving DecidableEq, Repr

/-- `BriefProcessor._normalize_brief_data`: adds `campaign_clean`, defaults
`hero_image` to `"auto"` when absent or falsy, upper-cases `file_format`
mapping `JPG` to `JPEG`, and cleans every product name. -/
def normalize_brief_data (b : BriefData) : CampaignData :=
  let campaign := b.campaign.getD ""
  let ff := str_toUpper (b.file_format.getD "")
  { campaign := campaign
    campaign_clean := clean_filename campaign
    target_region := b.target_region.getD ""
    target_audience := b.target_audience.getD ""
    product :=
      match b.product with
      | some (ProductField.plist es) => es.map clean_filename
      | _ => []
    campaign_message := b.campaign_message.getD ""
    file_format := if ff = "JPG" then "JPEG" else ff
    hero_image :=
      match b.hero_image with
      | none => "auto"
      | some h => if h = "" then "auto" else h }

/-- `BriefProcessor.process_brief` on an already-parsed JSON object:
validate, then normalize; `none` on validation failure. -/
def process_brief (b : BriefData) : Option CampaignData :=
  if validate_brief b then some (normalize_brief_data b) else none

/-! ## asset_manager.py — hero image resolver

`ensure_asset_in_s3` mixes local filesystem probes and S3 calls.  Those
effects are captured by an oracle record of outcomes; the control flow of
the Python function is reproduced exactly over it. -/

/-- Outcomes of the effectful sub-steps of `AssetManager.ensure_asset_in_s3`.
`upload`, `objectExists` and `presign` are keyed by the S3 key the code
builds; `none` from `upload`/`presign` is the caught-exception path of
`_upload_local_file_to_s3` / `generate_presigned_url`; `objectExists`
already maps a caught `ClientError` to `false`; `listGenerated = none`
is the caught exception of `_check_for_generated_asset`'s listing, and
`some keys` the listed keys under `generated/{campaign}_{product}_`. -/
structure ResolverEnv where
  /-- Result of `_find_hero_image_by_naming_convention` on the START
  folder: the matched file's name, or `none`. -/
  foundHeroName : Option String
  /-- Whether `campaign_folder / "input" / hero_image_filename` exists. -/
  exactFileExists : Bool
  upload : String → Option String
  objectExists : String → Bool
  presign : String → Option String
  listGenerated : Option (List String)

/-- `AssetManager._check_for_generated_asset`: list objects under the
generated namespace; on a caught exception or an empty listing return
`none`, else presign the first listed key. -/
def check_for_generated_asset (env : ResolverEnv) : Option String :=
  match env.listGenerated with
  | none => none
  | some [] => none
  | some (k :: _) => env.presign k

/-- `AssetManager.ensure_asset_in_s3`: the four-priority hero-image search.
Priority 1 naming-convention match in START (upload, return its result);
priority 2 exact filename in the campaign input folder (upload, return);
priority 3 pre-existing object at `assets/<filename>` (presign, return);
priority 4 previously generated object; else `none`. -/
def ensure_asset_in_s3 (env : ResolverEnv) (hero_image_filename : String) :
    Option String :=
  match env.foundHeroName with
  | some name => env.upload ("assets/" ++ name)
  | none =>
    if hero_image_filename ≠ "auto" && env.exactFileExists then
      env.upload ("assets/" ++ hero_image_filename)
    else if hero_image_filename ≠ "auto" &&
        env.objectExists ("assets/" ++ hero_image_filename) then
      env.presign ("assets/" ++ hero_image_filename)
    else
      match check_for_generated_asset env with
      | some url => some url
      | none => none

/-! ## main.py — per-product driver and per-campaign archival -/

/-- Oracle outcomes for one product of the driver loop in `main`:
the resolver's result, the generation fallback's result, and whether
`create_campaign_assets` succeeds. -/
structure ProductStep where
  resolved : Option String
  generated : Option String
  composeOk : Bool
deriving Repr

/-- Step 4b of `main`: generation is invoked exactly when the resolver
returned `None` (a falsy URL). -/
def generationInvoked (p : ProductStep) : Bool :=
  p.resolved.isNone

/-- One product succeeds in `main` when a hero URL was obtained (by
resolution or by generation) and the Bannerbear composition succeeded. -/
def productSucceeds (p : ProductStep) : Bool :=
  (p.resolved.isSome || p.generated.isSome) && p.composeOk

/-- The product loop of `main` (step 4): on the first product whose hero
image cannot be obtained or whose composition fails, `campaign_success`
is set to `False` and the loop `break`s; otherwise it runs to the end. -/
def processProducts : List ProductStep → Bool
  | [] => true
  | p :: rest => if productSucceeds p then processProducts rest else false

/-- Filesystem state relevant to archival: whether the original brief file
is still in the START (staging) folder, and whether
`input/campaign_brief.json` exists in the campaign folder. -/
structure ArchiveState where
  briefInStaging : Bool
  briefArchived : Bool
deriving DecidableEq, Repr

/-- `FolderManager.archive_processed_files`: copy the brief to
`input/campaign_brief.json`, then unlink the original from START. -/
def archive_processed_files (_st : ArchiveState) : ArchiveState :=
  { briefInStaging := false, briefArchived := true }

/-- Step 5 of `main`: archive exactly when `campaign_success` is true;
returns the campaign verdict and the resulting filesystem state. -/
def runCampaign (ps : List ProductStep) (st : ArchiveState) :
    Bool × ArchiveState :=
  let ok := processProducts ps
  (ok, if ok then archive_processed_files st else st)

/-! ## bannerbear_composer.py — polling state machine and variant handling -/

/-- One image object of the status endpoint's `images` array; every field
is optional, mirroring `image.get(...)`. -/
structure ImageData where
  image_url_png : Option String
  image_url_jpg : Option String
  height : Option Int
  width : Option Int
deriving DecidableEq, Repr

/-- The per-image validity test of the `completed` branch of
`_wait_for_collection_completion`:
`(image_url_png or image_url_jpg) and height is not None and width is not None`. -/
def validImage (img : ImageData) : Bool :=
  (img.image_url_png.isSome || img.image_url_jpg.isSome) &&
    img.height.isSome && img.width.isSome

/-- `poll_intervals = [3, 5, 5, 10, 10, 15, 15]`. -/
def poll_intervals : List Nat := [3, 5, 5, 10, 10, 15, 15]

/-- The wall-clock budget `max_wait = 120` seconds. -/
def max_wait : Nat := 120

/-- The sleep chosen for the `pollCount`-th successfully parsed poll when
the status is pending/processing:
`poll_intervals[min(poll_count - 1, len(poll_intervals) - 1)]`. -/
def sleepFor (pollCount : Nat) : Nat :=
  poll_intervals.getD (min (pollCount - 1) (poll_intervals.length - 1)) 0

/-- One poll attempt's outcome: a parsed response carrying a status string
and the `images` array, or a transport/parse exception. -/
inductive PollOutcome
  | ok (status : String) (images : List ImageData)
  | exn
deriving DecidableEq, Repr

/-- How `_wait_for_collection_completion` ends, with the model artifact
`traceEnded` for an oracle trace shorter than the loop demands. -/
inductive WaitResult
  | completedOk (assets : List ImageData)
  | completedEmpty
  | failedStatus
  | timeout
  | traceEnded
deriving DecidableEq, Repr

/-- The value the Python function returns for each ending:
`completedOk` yields the kept variants, every other ending yields `None`. -/
def resultToOption : WaitResult → Option (List ImageData)
  | WaitResult.completedOk a => some a
  | _ => none

/-- The `completed` branch: keep exactly the valid images; with zero valid
images the job is treated as a failure (`None`). -/
def completedResult (images : List ImageData) : WaitResult :=
  if (images.filter validImage).isEmpty then WaitResult.completedEmpty
  else WaitResult.completedOk (images.filter validImage)

/-- `_wait_for_collection_completion`'s loop over a finite oracle trace of
poll outcomes.  Arguments: remaining trace, elapsed seconds `t` (polls are
instantaneous, sleeps accumulate), and `poll_count` so far.  Returns the
ending together with the list of sleeps performed, in order.  Mirrors:
`while time.time() - start_time < max_wait`, `poll_count += 1` on every
parsed response, terminal returns for completed/failed, schedule sleep for
pending/processing, 10 s sleep for an unknown status, and 10 s sleep for a
caught exception (which does not increment `poll_count`). -/
def waitLoop : List PollOutcome → Nat → Nat → WaitResult × List Nat
  | [], t, _ =>
      if max_wait ≤ t then (WaitResult.timeout, []) else (WaitResult.traceEnded, [])
  | o :: rest, t, pc =>
      if max_wait ≤ t then (WaitResult.timeout, [])
      else
        match o with
        | PollOutcome.exn =>
            let r := waitLoop rest (t + 10) pc
            (r.1, 10 :: r.2)
        | PollOutcome.ok st images =>
            let pc' := pc + 1
            if st = "completed" then (completedResult images, [])
            else if st = "failed" then (WaitResult.failedStatus, [])
            else if st = "pending" || st = "processing" then
              let w := sleepFor pc'
              let r := waitLoop rest (t + w) pc'
              (r.1, w :: r.2)
            else
              let r := waitLoop rest (t + 10) pc'
              (r.1, 10 :: r.2)

/-- The per-variant URL/extension selection of `create_campaign_assets`
(lines 73–88): for `jpg`/`jpeg` take `image_url_jpg` with extension `jpg`;
for `png` take `image_url_png` with extension `png`; for an unrecognized
format fall back to PNG then JPG, the extension recording which was
present.  A `none` URL makes the caller skip the variant (`continue`). -/
def select_asset_url (file_format : String) (a : ImageData) :
    Option String × String :=
  let ff := str_toLower file_format
  if ff = "jpg" || ff = "jpeg" then (a.image_url_jpg, "jpg")
  else if ff = "png" then (a.image_url_png, "png")
  else
    (match a.image_url_png with
     | some u => some u
     | none => a.image_url_jpg,
     if a.image_url_png.isSome then "png" else "jpg")

/-- The output filename of `create_campaign_assets`:
`f"{height}x{width}_{campaign_clean}_{product}.{file_extension}"`. -/
def output_filename (height width : Int) (campaign_clean product ext : String) :
    String :=
  s!"{height}x{width}_{campaign_clean}_{product}.{ext}"

/-! ## firefly_generator.py — generation request -/

/-- The prompt template of `generate_and_upload_image` (line 73). -/
def build_prompt (product : String) : String :=
  "Professional photography of " ++ product ++
    ", modern style, clean background, high quality, commercial photography"

/-- The JSON body `_generate_image` sends to the generation endpoint. -/
structure GenPayload where
  prompt : String
  contentClass : String
  width : Nat
  height : Nat
  visualIntensity : Nat
  promptBiasingLocaleCode : String
deriving DecidableEq, Repr

/-- `_generate_image`'s payload: fixed 2048×2048 photo request;
`promptBiasingLocaleCode = target_region if target_region else "en-US"`
(Python falsiness: `None` or the empty string default to `"en-US"`). -/
def generate_payload (prompt : String) (target_region : Option String) :
    GenPayload :=
  { prompt := prompt
    contentClass := "photo"
    width := 2048
    height := 2048
    visualIntensity := 6
    promptBiasingLocaleCode :=
      match target_region with
      | none => "en-US"
      | some s => if s = "" then "en-US" else s }

/-- The request `generate_and_upload_image` makes for a product. -/
def generation_request (product : String) (target_region : Option String) :
    GenPayload :=
  generate_payload (build_prompt product) target_region

/-! ## Concrete fixtures used to exercise the definitions -/

/-- A well-formed raw brief with two products. -/
def briefBase : BriefData :=
  { campaign := some "Summer Sale"
    target_region := some "en-US"
    target_audience := some "everyone"
    product := some (ProductField.plist ["Shoe X", "Hat Y"])
    campaign_message := some "Buy now"
    file_format := some "png"
    hero_image := none }

/-- A resolver oracle where the naming-convention scan matches a local
file, the specified filename also exists remotely, uploads succeed, and a
generated asset exists as well: every priority could answer. -/
def envAllSources : ResolverEnv :=
  { foundHeroName := some "Camp_Prod_hero.jpg"
    exactFileExists := true
    upload := fun k => some ("uploaded:" ++ k)
    objectExists := fun _ => true
    presign := fun k => some ("presigned:" ++ k)
    listGenerated := some ["generated/Camp_Prod_hero.jpg"] }

/-- A resolver oracle where the naming-convention scan matches a local
file but every upload fails, while the specified filename exists remotely
and a generated asset exists: priorities 3 and 4 could still answer. -/
def envUploadFails : ResolverEnv :=
  { foundHeroName := some "Camp_Prod_hero.jpg"
    exactFileExists := true
    upload := fun _ => none
    objectExists := fun _ => true
    presign := fun k => some ("presigned:" ++ k)
    listGenerated := some ["generated/Camp_Prod_hero.jpg"] }

/-- Modelled from the spec's words only, for comparison with the source's
`build_prompt`: the template §4.2 and claim C9 quote,
"professional photography of {product}, modern style, clean background,
high quality, commercial photography". -/
def spec_prompt (product : String) : String :=
  "professional photography of " ++ product ++
    ", modern style, clean background, high quality, commercial photography"

/-- The per-asset step of `create_campaign_assets`: pick URL and extension,
skip (`continue`) when no URL; otherwise the output filename records the
chosen extension.  The `height`/`width` of collected assets are always
present; `getD 0` covers the unreachable absent case. -/
def asset_download_name (file_format campaign_clean product : String)
    (a : ImageData) : Option String :=
  match select_asset_url file_format a with
  | (none, _) => none
  | (some _, ext) =>
      some (output_filename (a.height.getD 0) (a.width.getD 0)
        campaign_clean product ext)

/-! ## Helper lemmas -/

theorem keepChar_cleanChar (c : Char) : keepChar (cleanChar c) = true := by
  cases h : keepChar c with
  | true => simp [cleanChar, h]
  | false => simp [cleanChar, h]; decide

theorem cleanChar_of_keep {c : Char} (h : keepChar c = true) : cleanChar c = c := by
  simp [cleanChar, h]

theorem map_cleanChar_id {l : List Char} (h : ∀ c ∈ l, keepChar c = true) :
    l.map cleanChar = l := by
  induction l with
  | nil => rfl
  | cons x xs ih =>
      simp only [List.map_cons]
      rw [cleanChar_of_keep (h x (by simp)), ih (fun c hc => h c (by simp [hc]))]

theorem stripUnderscores_eq_rdropWhile (l : List Char) :
    stripUnderscores l = List.rdropWhile (· = '_') (l.dropWhile (· = '_')) := rfl

theorem mem_stripUnderscores {c : Char} {l : List Char}
    (h : c ∈ stripUnderscores l) : c ∈ l := by
  rw [stripUnderscores_eq_rdropWhile] at h
  exact (List.dropWhile_suffix _).subset ((List.rdropWhile_prefix _ _).subset h)

theorem stripUnderscores_head?_ne {l : List Char} {x : Char}
    (h : (stripUnderscores l).head? = some x) : x ≠ '_' := by
  rw [stripUnderscores_eq_rdropWhile] at h
  obtain ⟨t, ht⟩ := List.rdropWhile_prefix (· = '_') (l.dropWhile (· = '_'))
  cases hs : List.rdropWhile (· = '_') (l.dropWhile (· = '_')) with
  | nil => rw [hs] at h; exact absurd h (by simp)
  | cons a s =>
      rw [hs] at h ht
      have hax : a = x := by simpa using h
      have hm : l.dropWhile (· = '_') = a :: (s ++ t) := by
        rw [← ht]; simp
      have hne : l.dropWhile (· = '_') ≠ [] := by rw [hm]; simp
      have hnot := List.head_dropWhile_not (· = '_') l hne
      have hh : (l.dropWhile (· = '_')).head hne = a := by
        have h1 : (l.dropWhile (· = '_')).head? = some a := by rw [hm]; rfl
        have h2 := List.head?_eq_head hne
        rw [h1] at h2
        exact (Option.some_inj.mp h2).symm
      rw [hh] at hnot
      have hnot2 : a ≠ '_' := by simpa using hnot
      exact hax ▸ hnot2

theorem stripUnderscores_getLast?_ne {l : List Char} {x : Char}
    (h : (stripUnderscores l).getLast? = some x) : x ≠ '_' := by
  rw [stripUnderscores_eq_rdropWhile] at h
  have hne : List.rdropWhile (· = '_') (l.dropWhile (· = '_')) ≠ [] := by
    intro hnil
    rw [hnil] at h
    exact absurd h (by simp)
  have hlast := List.rdropWhile_last_not (· = '_') (l.dropWhile (· = '_')) hne
  have hg : (List.rdropWhile (· = '_') (l.dropWhile (· = '_'))).getLast hne = x := by
    have h2 := List.getLast?_eq_getLast_of_ne_nil hne
    rw [h] at h2
    exact (Option.some_inj.mp h2).symm
  rw [hg] at hlast
  simpa using hlast

theorem dropWhile_eq_self_of_head {l : List Char}
    (h : ∀ x, l.head? = some x → x ≠ '_') : l.dropWhile (· = '_') = l := by
  cases l with
  | nil => rfl
  | cons a s =>
      rw [List.dropWhile_cons_of_neg]
      simpa using h a (by simp)

theorem stripUnderscores_idem (l : List Char) :
    stripUnderscores (stripUnderscores l) = stripUnderscores l := by
  rw [stripUnderscores_eq_rdropWhile (stripUnderscores l)]
  rw [dropWhile_eq_self_of_head (fun x hx => stripUnderscores_head?_ne hx)]
  rw [stripUnderscores_eq_rdropWhile]
  exact List.rdropWhile_idempotent _ _

theorem clean_filename_data (s : String) :
    (clean_filename s).data = stripUnderscores (s.data.map cleanChar) := rfl

theorem mem_clean_filename_keep {s : String} {c : Char}
    (h : c ∈ (clean_filename s).data) : keepChar c = true := by
  rw [clean_filename_data] at h
  obtain ⟨d, _, hd⟩ := List.mem_map.mp (mem_stripUnderscores h)
  rw [← hd]; exact keepChar_cleanChar d

theorem clean_filename_idem (s : String) :
    clean_filename (clean_filename s) = clean_filename s := by
  show (⟨stripUnderscores ((clean_filename s).data.map cleanChar)⟩ : String) =
    clean_filename s
  rw [map_cleanChar_id (fun c hc => mem_clean_filename_keep hc)]
  rw [clean_filename_data, stripUnderscores_idem]
  rfl

theorem validate_brief_iff (b : BriefData) :
    validate_brief b = true ↔
      (b.campaign.isSome = true ∧ b.target_region.isSome = true ∧
       b.target_audience.isSome = true ∧ b.campaign_message.isSome = true ∧
       (∃ es : List String,
          b.product = some (ProductField.plist es) ∧ 2 ≤ es.length) ∧
       (∃ ff : String, b.file_format = some ff ∧
          (str_toUpper ff = "PNG" ∨ str_toUpper ff = "JPEG" ∨
           str_toUpper ff = "JPG"))) := by
  obtain ⟨c, tr, ta, pr, cm, ffmt, hi⟩ := b
  unfold validate_brief
  cases pr with
  | none => simp
  | some pf =>
      cases pf with
      | notList => simp
      | plist es =>
          cases ffmt with
          | none => simp
          | some f =>
              simp only [Bool.and_eq_true, Bool.or_eq_true, decide_eq_true_eq,
                Option.isSome_some, Option.some.injEq, ProductField.plist.injEq,
                true_and, and_true, exists_eq_left, exists_eq_left']
              tauto

theorem processProducts_eq_all (ps : List ProductStep) :
    processProducts ps = ps.all productSucceeds := by
  induction ps with
  | nil => rfl
  | cons p rest ih =>
      cases h : productSucceeds p with
      | true => simp [processProducts, h, ih]
      | false => simp [processProducts, h]

/-! ## Claim theorems -/

/-- Claim C10: `_clean_filename` returns a string of only alphanumeric
characters, `-` and `_`, with no leading or trailing underscore, and it is
idempotent; consequently `campaign_clean` and every normalized product name
satisfy the character invariant. -/
theorem clean_filename_invariant_and_idempotent :
    (∀ s : String,
      (∀ c, c ∈ (clean_filename s).data →
        (c.isAlphanum || c = '-' || c = '_') = true) ∧
      (clean_filename s).data.head? ≠ some '_' ∧
      (clean_filename s).data.getLast? ≠ some '_' ∧
      clean_filename (clean_filename s) = clean_filename s) ∧
    (∀ b : BriefData,
      (∀ c, c ∈ (normalize_brief_data b).campaign_clean.data →
        (c.isAlphanum || c = '-' || c = '_') = true) ∧
      (∀ p, p ∈ (normalize_brief_data b).product →
        ∀ c, c ∈ p.data → (c.isAlphanum || c = '-' || c = '_') = true)) := by
  have main : ∀ s : String,
      (∀ c, c ∈ (clean_filename s).data →
        (c.isAlphanum || c = '-' || c = '_') = true) ∧
      (clean_filename s).data.head? ≠ some '_' ∧
      (clean_filename s).data.getLast? ≠ some '_' ∧
      clean_filename (clean_filename s) = clean_filename s := by
    intro s
    refine ⟨fun c hc => mem_clean_filename_keep hc, ?_, ?_, clean_filename_idem s⟩
    · intro h
      rw [clean_filename_data] at h
      exact absurd rfl (stripUnderscores_head?_ne h)
    · intro h
      rw [clean_filename_data] at h
      exact absurd rfl (stripUnderscores_getLast?_ne h)
  refine ⟨main, fun b => ⟨?_, ?_⟩⟩
  · exact fun c hc => (main (b.campaign.getD "")).1 c hc
  · intro p hp c hc
    have : (normalize_brief_data b).product =
        (match b.product with
         | some (ProductField.plist es) => es.map clean_filename
         | _ => []) := rfl
    rw [this] at hp
    cases hb : b.product with
    | none => rw [hb] at hp; simp at hp
    | some pf =>
        cases pf with
        | notList => rw [hb] at hp; simp at hp
        | plist es =>
            rw [hb] at hp
            obtain ⟨orig, _, ho⟩ := List.mem_map.mp hp
            rw [← ho] at hc
            exact (main orig).1 c hc

/-- Witness for C10: instantiated at the campaign name `"Summer Sale!"`
and the character `S` of its cleaned form. -/
theorem clean_filename_invariant_and_idempotent_witness :
    ('S'.isAlphanum || 'S' = '-' || 'S' = '_') = true ∧
    clean_filename (clean_filename "Summer Sale!") = clean_filename "Summer Sale!" := by
  refine ⟨(clean_filename_invariant_and_idempotent.1 "Summer Sale!").1 'S' ?_,
    (clean_filename_invariant_and_idempotent.1 "Summer Sale!").2.2.2⟩
  show 'S' ∈ (clean_filename "Summer Sale!").data
  decide

/-- Claim C8: `process_brief` returns a normalized brief exactly when all
required keys are present, `product` is a list of at least 2 entries, and
`file_format` is case-insensitively one of PNG, JPEG, JPG; a 1-product
brief is rejected while 2 products pass; `"jpg"` normalizes to `"JPEG"`;
`"xyz"` is rejected. -/
theorem process_brief_acceptance :
    (∀ b : BriefData,
      (process_brief b).isSome = true ↔
        (b.campaign.isSome = true ∧ b.target_region.isSome = true ∧
         b.target_audience.isSome = true ∧ b.campaign_message.isSome = true ∧
         (∃ es : List String,
            b.product = some (ProductField.plist es) ∧ 2 ≤ es.length) ∧
         (∃ ff : String, b.file_format = some ff ∧
            (str_toUpper ff = "PNG" ∨ str_toUpper ff = "JPEG" ∨
             str_toUpper ff = "JPG")))) ∧
    process_brief { briefBase with
      product := some (ProductField.plist ["Shoe X"]) } = none ∧
    (process_brief briefBase).isSome = true ∧
    (process_brief { briefBase with
      file_format := some "jpg" }).map CampaignData.file_format = some "JPEG" ∧
    process_brief { briefBase with file_format := some "xyz" } = none := by
  refine ⟨?_, by decide, by decide, by decide, by decide⟩
  intro b
  rw [← validate_brief_iff b, process_brief]
  cases hv : validate_brief b <;> simp [hv]

/-- Claim C2: the hero-image resolver consults naming-convention match,
exact brief filename, pre-existing remote object, previously generated
object, in that order, returning at the first success; a convention match
wins over a pre-existing remote object and is (re-)uploaded; generation is
invoked exactly when the resolver returns the not-found signal. -/
theorem resolver_priority_order :
    (∀ (env : ResolverEnv) (fn name url : String),
      env.foundHeroName = some name →
      env.upload ("assets/" ++ name) = some url →
      env.objectExists ("assets/" ++ fn) = true →
      ensure_asset_in_s3 env fn = some url) ∧
    (∀ (env : ResolverEnv) (fn url : String),
      env.foundHeroName = none → fn ≠ "auto" → env.exactFileExists = true →
      env.upload ("assets/" ++ fn) = some url →
      ensure_asset_in_s3 env fn = some url) ∧
    (∀ (env : ResolverEnv) (fn url : String),
      env.foundHeroName = none → fn ≠ "auto" → env.exactFileExists = false →
      env.objectExists ("assets/" ++ fn) = true →
      env.presign ("assets/" ++ fn) = some url →
      ensure_asset_in_s3 env fn = some url) ∧
    (∀ (env : ResolverEnv) (fn url k : String) (ks : List String),
      env.foundHeroName = none →
      (fn = "auto" ∨ (env.exactFileExists = false ∧
        env.objectExists ("assets/" ++ fn) = false)) →
      env.listGenerated = some (k :: ks) →
      env.presign k = some url →
      ensure_asset_in_s3 env fn = some url) ∧
    (∀ (env : ResolverEnv) (fn : String) (p : ProductStep),
      p.resolved = ensure_asset_in_s3 env fn →
      (generationInvoked p = true ↔ ensure_asset_in_s3 env fn = none)) := by
  refine ⟨?_, ?_, ?_, ?_, ?_⟩
  · intro env fn name url h1 h2 _h3
    simp [ensure_asset_in_s3, h1, h2]
  · intro env fn url h1 hfn h2 h3
    simp [ensure_asset_in_s3, h1, h2, h3, hfn]
  · intro env fn url h1 hfn h2 h3 h4
    simp [ensure_asset_in_s3, h1, h2, h3, h4, hfn]
  · intro env fn url k ks h1 h2 h3 h4
    rcases h2 with h2 | ⟨h2a, h2b⟩
    · subst h2
      simp [ensure_asset_in_s3, h1, check_for_generated_asset, h3, h4]
    · simp [ensure_asset_in_s3, h1, h2a, h2b, check_for_generated_asset, h3, h4]
  · intro env fn p hp
    rw [generationInvoked, hp, Option.isNone_iff_eq_none]

/-- Witness for C2: the oracle `envAllSources` where every priority could
answer; the convention match wins and its upload result is returned, and
generation is not invoked. -/
theorem resolver_priority_order_witness :
    ensure_asset_in_s3 envAllSources "hero.png" =
      some "uploaded:assets/Camp_Prod_hero.jpg" ∧
    generationInvoked
      { resolved := ensure_asset_in_s3 envAllSources "hero.png",
        generated := none, composeOk := true } = false := by
  have h1 := resolver_priority_order.1 envAllSources "hero.png"
    "Camp_Prod_hero.jpg" "uploaded:assets/Camp_Prod_hero.jpg" rfl rfl rfl
  have h2 := (resolver_priority_order.2.2.2.2 envAllSources "hero.png"
    { resolved := ensure_asset_in_s3 envAllSources "hero.png",
      generated := none, composeOk := true } rfl)
  refine ⟨h1, ?_⟩
  cases hg : generationInvoked
      { resolved := ensure_asset_in_s3 envAllSources "hero.png",
        generated := none, composeOk := true } with
  | false => rfl
  | true =>
      have := h2.mp hg
      rw [h1] at this
      exact absurd this (by simp)

/-- Counterexample to claim C4 as stated: in `envUploadFails` the
naming-convention scan matches but the upload fails; priorities 2–4 could
all still answer (the remote object exists, presigning works, a generated
asset is listed), yet the resolver returns `none` instead of degrading to
the next priority. -/
theorem resolver_upload_failure_not_degrading :
    ensure_asset_in_s3 envUploadFails "hero.png" = none ∧
    envUploadFails.objectExists ("assets/" ++ "hero.png") = true ∧
    envUploadFails.presign ("assets/" ++ "hero.png") =
      some "presigned:assets/hero.png" ∧
    check_for_generated_asset envUploadFails =
      some "presigned:generated/Camp_Prod_hero.jpg" :=
  ⟨rfl, rfl, rfl, rfl⟩

/-- Claim C4 amended: caught failures of the remote existence check and of
the generated-assets listing degrade to the next priority or to the miss
signal, and no step raises; but a failed upload during the
naming-convention or exact-filename step ends resolution immediately with
`none` (the same signal as a miss, so the caller proceeds to generation)
without consulting the remaining priorities. -/
theorem resolver_failure_degradation_amended :
    (∀ (env : ResolverEnv) (fn name : String),
      env.foundHeroName = some name →
      env.upload ("assets/" ++ name) = none →
      ensure_asset_in_s3 env fn = none) ∧
    (∀ (env : ResolverEnv) (fn : String),
      env.foundHeroName = none → fn ≠ "auto" → env.exactFileExists = true →
      env.upload ("assets/" ++ fn) = none →
      ensure_asset_in_s3 env fn = none) ∧
    (∀ (env : ResolverEnv) (fn url k : String) (ks : List String),
      env.foundHeroName = none → fn ≠ "auto" → env.exactFileExists = false →
      env.objectExists ("assets/" ++ fn) = false →
      env.listGenerated = some (k :: ks) →
      env.presign k = some url →
      ensure_asset_in_s3 env fn = some url) ∧
    (∀ (env : ResolverEnv) (fn : String),
      env.foundHeroName = none → fn = "auto" →
      env.listGenerated = none →
      ensure_asset_in_s3 env fn = none) ∧
    (∀ (env : ResolverEnv) (fn : String) (p : ProductStep),
      p.resolved = ensure_asset_in_s3 env fn →
      ensure_asset_in_s3 env fn = none →
      generationInvoked p = true) := by
  refine ⟨?_, ?_, ?_, ?_, ?_⟩
  · intro env fn name h1 h2
    simp [ensure_asset_in_s3, h1, h2]
  · intro env fn h1 hfn h2 h3
    simp [ensure_asset_in_s3, h1, h2, h3, hfn]
  · intro env fn url k ks h1 hfn h2 h3 h4 h5
    simp [ensure_asset_in_s3, h1, h2, h3, check_for_generated_asset, h4, h5, hfn]
  · intro env fn h1 hfn h2
    subst hfn
    simp [ensure_asset_in_s3, h1, check_for_generated_asset, h2]
  · intro env fn p hp hnone
    rw [generationInvoked, hp, hnone]
    rfl

/-- Witness for C4 (amended): the first conjunct applied to
`envUploadFails`, and the degradation conjunct applied to an oracle where
only priority 4 answers. -/
theorem resolver_failure_degradation_amended_witness :
    ensure_asset_in_s3 envUploadFails "hero.png" = none ∧
    ensure_asset_in_s3
      { foundHeroName := none, exactFileExists := false,
        upload := fun _ => none, objectExists := fun _ => false,
        presign := fun k => some ("presigned:" ++ k),
        listGenerated := some ["generated/Camp_Prod_hero.jpg"] } "hero.png" =
      some "presigned:generated/Camp_Prod_hero.jpg" := by
  constructor
  · exact resolver_failure_degradation_amended.1 envUploadFails "hero.png"
      "Camp_Prod_hero.jpg" rfl rfl
  · exact resolver_failure_degradation_amended.2.2.1
      { foundHeroName := none, exactFileExists := false,
        upload := fun _ => none, objectExists := fun _ => false,
        presign := fun k => some ("presigned:" ++ k),
        listGenerated := some ["generated/Camp_Prod_hero.jpg"] }
      "hero.png" "presigned:generated/Camp_Prod_hero.jpg"
      "generated/Camp_Prod_hero.jpg" [] rfl (by decide) rfl rfl rfl rfl

/-- Claim C7: the brief is archived (copied to `input/campaign_brief.json`
and removed from the START staging folder) if and only if every product of
the campaign succeeded; on any failure the brief stays in staging. -/
theorem brief_archival_iff_all_products_succeed :
    (∀ ps : List ProductStep, processProducts ps = ps.all productSucceeds) ∧
    (∀ ps : List ProductStep,
      (runCampaign ps { briefInStaging := true, briefArchived := false }).2 =
        { briefInStaging := false, briefArchived := true } ↔
      ps.all productSucceeds = true) ∧
    (∀ ps : List ProductStep,
      ps.all productSucceeds = false →
      (runCampaign ps { briefInStaging := true, briefArchived := false }).2 =
        { briefInStaging := true, briefArchived := false }) := by
  refine ⟨processProducts_eq_all, ?_, ?_⟩
  · intro ps
    rw [runCampaign]
    cases h : processProducts ps with
    | true =>
        rw [processProducts_eq_all] at h
        simp [archive_processed_files, h]
    | false =>
        rw [processProducts_eq_all] at h
        simp [h]
  · intro ps h
    rw [runCampaign, processProducts_eq_all, h]
    rfl

/-- Witness for C7: a two-product campaign where the second product's
composition fails keeps the brief in staging; with both succeeding it is
archived. -/
theorem brief_archival_iff_all_products_succeed_witness :
    (runCampaign
        [{ resolved := some "u1", generated := none, composeOk := true },
         { resolved := some "u2", generated := none, composeOk := false }]
        { briefInStaging := true, briefArchived := false }).2 =
      { briefInStaging := true, briefArchived := false } ∧
    (runCampaign
        [{ resolved := some "u1", generated := none, composeOk := true },
         { resolved := none, generated := some "u2", composeOk := true }]
        { briefInStaging := true, briefArchived := false }).2 =
      { briefInStaging := false, briefArchived := true } := by
  constructor
  · exact brief_archival_iff_all_products_succeed.2.2
      [{ resolved := some "u1", generated := none, composeOk := true },
       { resolved := some "u2", generated := none, composeOk := false }]
      (by decide)
  · exact (brief_archival_iff_all_products_succeed.2.1
      [{ resolved := some "u1", generated := none, composeOk := true },
       { resolved := none, generated := some "u2", composeOk := true }]).mpr
      (by decide)

/-- Counterexample to claim C9 as stated: the code's prompt template
capitalizes "Professional", so the prompt differs from the spec's quoted
template "professional photography of {product}, ..." at the very first
character; shown at the concrete product "Widget". -/
theorem prompt_template_differs_from_spec :
    build_prompt "Widget" ≠ spec_prompt "Widget" ∧
    build_prompt "Widget" =
      "Professional photography of Widget, modern style, clean background, high quality, commercial photography" := by
  exact ⟨by decide, rfl⟩

/-- Claim C9 amended: the prompt is built exactly from the fixed template
"Professional photography of {product}, modern style, clean background,
high quality, commercial photography" (capital P); the request is a fixed
2048×2048 square; the locale bias code is the campaign's target region,
defaulting to "en-US" when unset (absent or empty). -/
theorem generation_request_amended :
    (∀ (product : String) (tr : Option String),
      (generation_request product tr).prompt =
        "Professional photography of " ++ product ++
          ", modern style, clean background, high quality, commercial photography") ∧
    (∀ (product : String) (tr : Option String),
      (generation_request product tr).width = 2048 ∧
      (generation_request product tr).height = 2048) ∧
    (∀ product : String,
      (generation_request product none).promptBiasingLocaleCode = "en-US") ∧
    (∀ product : String,
      (generation_request product (some "")).promptBiasingLocaleCode = "en-US") ∧
    (∀ (product s : String), s ≠ "" →
      (generation_request product (some s)).promptBiasingLocaleCode = s) := by
  refine ⟨fun p tr => rfl, fun p tr => ⟨rfl, rfl⟩, fun p => rfl, fun p => ?_, ?_⟩
  · simp [generation_request, generate_payload]
  · intro p s hs
    simp [generation_request, generate_payload, hs]

/-- Witness for C9 (amended): concrete product "Widget" with target region
"fr-FR". -/
theorem generation_request_amended_witness :
    (generation_request "Widget" (some "fr-FR")).promptBiasingLocaleCode =
      "fr-FR" :=
  generation_request_amended.2.2.2.2 "Widget" "fr-FR" (by decide)

/-- Claim C1: for a job polled while pending/processing, the sleeps for
poll indices 1..8 are [3,5,5,10,10,15,15,15] seconds and every poll past
the seventh reuses 15 s; the loop stops exactly on a terminal status
(completed or failed) or once the 120-second budget is exhausted,
whichever comes first — shown by the loop equations and by a full
all-pending run that times out after sleeping 3+5+5+10+10+6·15 = 123 s. -/
theorem polling_backoff_and_termination :
    ((List.range 8).map (fun k => sleepFor (k + 1)) =
      [3, 5, 5, 10, 10, 15, 15, 15]) ∧
    (∀ i, 7 ≤ i → sleepFor i = 15) ∧
    (∀ (outs : List PollOutcome) (t pc : Nat), max_wait ≤ t →
      waitLoop outs t pc = (WaitResult.timeout, [])) ∧
    (∀ (images : List ImageData) (rest : List PollOutcome) (t pc : Nat),
      t < max_wait →
      waitLoop (PollOutcome.ok "completed" images :: rest) t pc =
        (completedResult images, [])) ∧
    (∀ (images : List ImageData) (rest : List PollOutcome) (t pc : Nat),
      t < max_wait →
      waitLoop (PollOutcome.ok "failed" images :: rest) t pc =
        (WaitResult.failedStatus, [])) ∧
    (∀ (st : String) (images : List ImageData) (rest : List PollOutcome)
        (t pc : Nat),
      t < max_wait → (st = "pending" ∨ st = "processing") →
      waitLoop (PollOutcome.ok st images :: rest) t pc =
        ((waitLoop rest (t + sleepFor (pc + 1)) (pc + 1)).1,
         sleepFor (pc + 1) :: (waitLoop rest (t + sleepFor (pc + 1)) (pc + 1)).2)) ∧
    (waitLoop (List.replicate 11 (PollOutcome.ok "pending" [])) 0 0 =
      (WaitResult.timeout, [3, 5, 5, 10, 10, 15, 15, 15, 15, 15, 15])) := by
  refine ⟨by decide, ?_, ?_, ?_, ?_, ?_, by decide⟩
  · intro i hi
    have h6 : min (i - 1) (poll_intervals.length - 1) = 6 := by
      simp only [poll_intervals, List.length_cons, List.length_nil]
      omega
    rw [sleepFor, h6]
    rfl
  · intro outs t pc h
    cases outs <;> simp [waitLoop, h]
  · intro images rest t pc h
    simp [waitLoop, Nat.not_le.mpr h]
  · intro images rest t pc h
    simp [waitLoop, Nat.not_le.mpr h]
  · intro st images rest t pc h hst
    rcases hst with hst | hst <;> subst hst <;>
      simp [waitLoop, Nat.not_le.mpr h]

/-- Witness for C1: the loop equations instantiated at concrete inputs —
budget already exhausted at 120 s, an immediate completed poll, a pending
poll followed by a failed poll, and the schedule value for poll 8. -/
theorem polling_backoff_and_termination_witness :
    waitLoop [] 120 0 = (WaitResult.timeout, []) ∧
    waitLoop [PollOutcome.ok "completed" []] 0 0 = (completedResult [], []) ∧
    waitLoop [PollOutcome.ok "pending" [], PollOutcome.ok "failed" []] 0 0 =
      ((waitLoop [PollOutcome.ok "failed" []] (0 + sleepFor 1) 1).1,
       sleepFor 1 :: (waitLoop [PollOutcome.ok "failed" []] (0 + sleepFor 1) 1).2) ∧
    sleepFor 8 = 15 :=
  ⟨polling_backoff_and_termination.2.2.1 [] 120 0 (by decide),
   polling_backoff_and_termination.2.2.2.1 [] [] 0 0 (by decide),
   polling_backoff_and_termination.2.2.2.2.2.1 "pending" []
     [PollOutcome.ok "failed" []] 0 0 (by decide) (Or.inl rfl),
   polling_backoff_and_termination.2.1 8 (by decide)⟩

/-- Counterexample to claim C5 as stated: an unrecognized status does use
the fixed 10 s wait and polling continues, but `poll_count` (and with it
the backoff index) is advanced: after one unknown-status poll a pending
poll sleeps 5 s (schedule index 2), not the 3 s (index 1) the claim
requires; a transport exception, by contrast, leaves the index at 1. -/
theorem unknown_status_advances_backoff :
    (waitLoop [PollOutcome.ok "uh-oh" [], PollOutcome.ok "pending" []] 0 0).2 =
      [10, 5] ∧
    (waitLoop [PollOutcome.exn, PollOutcome.ok "pending" []] 0 0).2 =
      [10, 3] ∧
    ([10, 5] : List Nat) ≠ [10, 3] :=
  ⟨by decide, by decide, by decide⟩

/-- Claim C5 amended: on an unrecognized status the client logs, sleeps a
fixed 10 s and keeps polling, but the poll counter driving the backoff
index for subsequent pending/processing polls is advanced by one (only a
transport exception leaves it unchanged). -/
theorem unknown_status_fallback_amended :
    (∀ (st : String) (images : List ImageData) (rest : List PollOutcome)
        (t pc : Nat),
      t < max_wait →
      st ≠ "completed" → st ≠ "failed" → st ≠ "pending" → st ≠ "processing" →
      waitLoop (PollOutcome.ok st images :: rest) t pc =
        ((waitLoop rest (t + 10) (pc + 1)).1,
         10 :: (waitLoop rest (t + 10) (pc + 1)).2)) ∧
    (∀ (rest : List PollOutcome) (t pc : Nat),
      t < max_wait →
      waitLoop (PollOutcome.exn :: rest) t pc =
        ((waitLoop rest (t + 10) pc).1, 10 :: (waitLoop rest (t + 10) pc).2)) ∧
    (waitLoop [PollOutcome.ok "uh-oh" [], PollOutcome.ok "pending" []] 0 0).2 =
      [10, 5] := by
  refine ⟨?_, ?_, by decide⟩
  · intro st images rest t pc h h1 h2 h3 h4
    simp [waitLoop, Nat.not_le.mpr h, h1, h2, h3, h4]
  · intro rest t pc h
    simp [waitLoop, Nat.not_le.mpr h]

/-- Witness for C5 (amended): the unknown-status equation applied at
status "uh-oh", elapsed 0, poll count 0, with a pending poll following. -/
theorem unknown_status_fallback_amended_witness :
    waitLoop [PollOutcome.ok "uh-oh" [], PollOutcome.ok "pending" []] 0 0 =
      ((waitLoop [PollOutcome.ok "pending" []] 10 1).1,
       10 :: (waitLoop [PollOutcome.ok "pending" []] 10 1).2) :=
  unknown_status_fallback_amended.1 "uh-oh" [] [PollOutcome.ok "pending" []]
    0 0 (by decide) (by decide) (by decide) (by decide) (by decide)

/-- Claim C6: on a completed job, exactly the images lacking width, height
or both format URLs are dropped (never fatal by itself); the kept variants
form the job result, and zero kept variants is a job failure (`None`). -/
theorem completed_variant_filtering :
    (∀ (images : List ImageData) (rest : List PollOutcome) (t pc : Nat),
      t < max_wait →
      (waitLoop (PollOutcome.ok "completed" images :: rest) t pc).1 =
        completedResult images) ∧
    (∀ (images kept : List ImageData),
      completedResult images = WaitResult.completedOk kept →
      ∀ img, img ∈ kept ↔ (img ∈ images ∧ validImage img = true)) ∧
    (∀ img : ImageData, validImage img = true ↔
      ((img.image_url_png.isSome = true ∨ img.image_url_jpg.isSome = true) ∧
       img.height.isSome = true ∧ img.width.isSome = true)) ∧
    (∀ images : List ImageData,
      completedResult images = WaitResult.completedEmpty ↔
        ∀ img ∈ images, validImage img = false) ∧
    (∀ images : List ImageData,
      (∀ img ∈ images, validImage img = false) →
      resultToOption (completedResult images) = none) := by
  refine ⟨?_, ?_, ?_, ?_, ?_⟩
  · intro images rest t pc h
    simp [waitLoop, Nat.not_le.mpr h]
  · intro images kept hk img
    rw [completedResult] at hk
    by_cases he : images.filter validImage = []
    · rw [he] at hk
      simp at hk
    · have hne : (images.filter validImage).isEmpty = false := by
        simpa [List.isEmpty_iff] using he
      rw [hne] at hk
      simp at hk
      subst hk
      simp [List.mem_filter]
  · intro img
    rw [validImage]
    simp only [Bool.and_eq_true, Bool.or_eq_true, and_assoc]
  · intro images
    constructor
    · intro h img hm
      by_contra hv
      have hvb : validImage img = true := by simpa using hv
      have hmem : img ∈ images.filter validImage :=
        List.mem_filter.mpr ⟨hm, hvb⟩
      have hne : (images.filter validImage).isEmpty = false := by
        cases hf : images.filter validImage with
        | nil => rw [hf] at hmem; simp at hmem
        | cons a l => simp
      rw [completedResult, hne] at h
      simp at h
    · intro hall
      have hnil : images.filter validImage = [] :=
        List.filter_eq_nil_iff.mpr (fun a ha => by simp [hall a ha])
      rw [completedResult, hnil]
      rfl
  · intro images hall
    have hnil : images.filter validImage = [] :=
      List.filter_eq_nil_iff.mpr (fun a ha => by simp [hall a ha])
    rw [completedResult, hnil]
    rfl

/-- Witness for C6: a completed job with one valid image and one image
missing both URLs keeps exactly the valid one; with only invalid images
the result is `None`. -/
theorem completed_variant_filtering_witness :
    (waitLoop
        [PollOutcome.ok "completed"
          [{ image_url_png := some "p", image_url_jpg := none,
             height := some 100, width := some 50 },
           { image_url_png := none, image_url_jpg := none,
             height := some 100, width := some 50 }]] 0 0).1 =
      completedResult
        [{ image_url_png := some "p", image_url_jpg := none,
           height := some 100, width := some 50 },
         { image_url_png := none, image_url_jpg := none,
           height := some 100, width := some 50 }] ∧
    resultToOption (completedResult
        [{ image_url_png := none, image_url_jpg := none,
           height := some 100, width := some 50 }]) = none := by
  constructor
  · exact completed_variant_filtering.1 _ [] 0 0 (by decide)
  · exact completed_variant_filtering.2.2.2.2 _ (by decide)

/-- Counterexample to claim C3 as stated: with requested format PNG and a
variant carrying only a JPG URL, the code yields no URL (extension label
"png") and the caller skips the variant — it does not fall back to the
available JPG URL. -/
theorem variant_no_cross_format_fallback :
    select_asset_url "png"
      { image_url_png := none, image_url_jpg := some "https://cdn/x.jpg",
        height := some 1920, width := some 1080 } = (none, "png") ∧
    ({ image_url_png := none, image_url_jpg := some "https://cdn/x.jpg",
       height := some 1920, width := some 1080 } : ImageData).image_url_jpg =
      some "https://cdn/x.jpg" ∧
    ((none, "png") : Option String × String) ≠
      (some "https://cdn/x.jpg", "jpg") ∧
    asset_download_name "png" "SummerSale" "ShoeX"
      { image_url_png := none, image_url_jpg := some "https://cdn/x.jpg",
        height := some 1920, width := some 1080 } = none :=
  ⟨rfl, rfl, by decide, rfl⟩

/-- Claim C3 amended: for the recognized formats the matching URL field is
selected with the matching extension and there is no cross-format
fallback (a missing URL skips the variant); only an unrecognized format
falls back to PNG then JPG, the recorded extension naming the URL used;
the chosen extension is recorded in the output filename
`{height}x{width}_{campaign_clean}_{product}.{ext}`. -/
theorem variant_selection_amended :
    (∀ (a : ImageData) (ff : String),
      str_toLower ff = "jpg" ∨ str_toLower ff = "jpeg" →
      select_asset_url ff a = (a.image_url_jpg, "jpg")) ∧
    (∀ (a : ImageData) (ff : String),
      str_toLower ff = "png" →
      select_asset_url ff a = (a.image_url_png, "png")) ∧
    (∀ (a : ImageData) (ff u : String),
      str_toLower ff ≠ "jpg" → str_toLower ff ≠ "jpeg" →
      str_toLower ff ≠ "png" →
      a.image_url_png = some u →
      select_asset_url ff a = (some u, "png")) ∧
    (∀ (a : ImageData) (ff u : String),
      str_toLower ff ≠ "jpg" → str_toLower ff ≠ "jpeg" →
      str_toLower ff ≠ "png" →
      a.image_url_png = none → a.image_url_jpg = some u →
      select_asset_url ff a = (some u, "jpg")) ∧
    (∀ (ff cc prod : String) (a : ImageData) (u ext : String),
      select_asset_url ff a = (some u, ext) →
      asset_download_name ff cc prod a =
        some (output_filename (a.height.getD 0) (a.width.getD 0) cc prod ext)) ∧
    (∀ (ff cc prod : String) (a : ImageData) (ext : String),
      select_asset_url ff a = (none, ext) →
      asset_download_name ff cc prod a = none) ∧
    output_filename 1920 1080 "SummerSale" "ShoeX" "jpg" =
      "1920x1080_SummerSale_ShoeX.jpg" := by
  refine ⟨?_, ?_, ?_, ?_, ?_, ?_, by decide⟩
  · intro a ff hff
    rcases hff with hff | hff <;> simp [select_asset_url, hff]
  · intro a ff hff
    simp [select_asset_url, hff]
  · intro a ff u h1 h2 h3 hp
    simp [select_asset_url, h1, h2, h3, hp]
  · intro a ff u h1 h2 h3 hp hj
    simp [select_asset_url, h1, h2, h3, hp, hj]
  · intro ff cc prod a u ext hs
    rw [asset_download_name, hs]
  · intro ff cc prod a ext hs
    rw [asset_download_name, hs]

/-- Witness for C3 (amended): requested normalized format "PNG" selects
the PNG URL with extension png, and the download name records it. -/
theorem variant_selection_amended_witness :
    select_asset_url "PNG"
      { image_url_png := some "https://cdn/x.png", image_url_jpg := none,
        height := some 1920, width := some 1080 } =
      (some "https://cdn/x.png", "png") ∧
    asset_download_name "PNG" "SummerSale" "ShoeX"
      { image_url_png := some "https://cdn/x.png", image_url_jpg := none,
        height := some 1920, width := some 1080 } =
      some "1920x1080_SummerSale_ShoeX.png" := by
  constructor
  · exact variant_selection_amended.2.1
      { image_url_png := some "https://cdn/x.png", image_url_jpg := none,
        height := some 1920, width := some 1080 } "PNG" (by decide)
  · have h := variant_selection_amended.2.2.2.2.1 "PNG" "SummerSale" "ShoeX"
      { image_url_png := some "https://cdn/x.png", image_url_jpg := none,
        height := some 1920, width := some 1080 } "https://cdn/x.png" "png"
      (by decide)
    rw [h]
    decide

end Pipeline
